import Mathlib

/-!
Shallow embedding of the trace/constraint evaluation core of the
`mg_winterfell` repository (a modified winterfell STARK engine):

* `src/air/src/air/transition/frame.rs` — the `EvaluationFrame` trait and its
  two concrete shapes `DefaultEvaluationFrame` and `CustomEvaluationFrame`;
* `src/prover/src/trace/poly_table.rs` — `TracePolyTable`;
* `src/examples/src/custom_frames/cairo_cpu/frame.rs` — `CairoCpuFrame`.

The dense matrix types (`Table`, row-major, from the `air` crate and
`Matrix`, column-major, from the `prover` crate) and the `TableReader`
capability are library code of the repository that is not under `src/`;
they are modelled from the spec (sections 3, 4.1 and 6) where noted.
Field elements are kept polymorphic (`F`); the base-field/extension-field
distinction of the Rust generics is identified (the embedding `E::from`
is the identity), which is faithful for all properties treated here.
Panics (assertion failures and out-of-bounds accesses) are modelled by
`Option`-valued operations returning `none`.
-/

namespace Winterfell

/-- Modelled from the spec (section 3 "Table (dense matrix)" and 4.1):
row-major rectangular storage of field elements.  The Rust type is
`Table<E>` in the `air` crate's `matrix` module, not under `src/`. -/
structure Table (F : Type) where
  rows : List (List F)

/-- Modelled from the spec (4.1): `get_row` returns the row at the given
index; out-of-bounds access is a panic in Rust, modelled as `none`. -/
def Table.get_row? {F : Type} (t : Table F) (i : Nat) : Option (List F) :=
  t.rows[i]?

/-- Modelled from the spec (4.1): `from_rows` builds a matrix from
already-materialized rows, failing if row lengths disagree. -/
def Table.from_rows {F : Type} (rows : List (List F)) : Option (Table F) :=
  if rows.all (fun r => r.length = (rows.headD []).length) then
    some ⟨rows⟩
  else
    none

/-- Modelled from the spec (section 6 "Trace Reader capability"): a trace
exposed as a 2-D array addressable by (column, row) with known row and
column counts.  This is the `TableReader` trait of the `utils` crate,
consumed by `read_from`; `get` is modelled as a total function. -/
structure TableReader (F : Type) where
  num_rows : Nat
  num_cols : Nat
  get : Nat → Nat → F

-- DEFAULT EVALUATION FRAME (src/air/src/air/transition/frame.rs)
-- ===============================================================

/-- Rust `DefaultEvaluationFrame<E>` from `src/air/src/air/transition/frame.rs`:
two separately owned row vectors `current` and `next`. -/
structure DefaultEvaluationFrame (F : Type) where
  current : List F
  next : List F

namespace DefaultEvaluationFrame

/-- Rust `const FRAME_OFFSETS: [usize; 2] = [0, 1];` -/
def FRAME_OFFSETS : List Nat := [0, 1]

/-- Rust `const FRAME_SHIFT: usize = 1;` -/
def FRAME_SHIFT : Nat := 1

/-- Rust `fn offsets() -> &'static [usize] { &Self::FRAME_OFFSETS }` -/
def offsets : List Nat := FRAME_OFFSETS

/-- Rust `fn shift() -> usize { Self::FRAME_SHIFT }` -/
def shift : Nat := FRAME_SHIFT

/-- Rust `fn num_rows() -> usize { Self::offsets().len() }` (trait default). -/
def num_rows : Nat := offsets.length

/-- Rust `fn read_from(&mut self, data, step, blowup)` of `DefaultEvaluationFrame`:

    for col_idx in 0..data.num_cols():
      current[col_idx] = data.get(col_idx, step);
      next[col_idx]    = data.get(col_idx, (step + blowup) % trace_len);

The loop overwrites the cells `0..num_cols` of each row in place; the
frame is allocated by `new` with exactly `num_cols` cells per row, so the
rows are rebuilt wholesale here.  Note the `current` row is read at the
raw `step`, with no reduction modulo `trace_len`. -/
def read_from {F : Type} (_self : DefaultEvaluationFrame F)
    (data : TableReader F) (step blowup : Nat) : DefaultEvaluationFrame F :=
  { current := (List.range data.num_cols).map (fun c => data.get c step),
    next := (List.range data.num_cols).map
      (fun c => data.get c ((step + blowup) % data.num_rows)) }

/-- Row indices this frame's `read_from` passes to `data.get`, in loop
order: for each `col_idx in 0..num_cols`, first `step` (for `current`),
then `(step + blowup) % trace_len` (for `next`). -/
def readRowArgs {F : Type} (data : TableReader F) (step blowup : Nat) :
    List Nat :=
  (List.range data.num_cols).flatMap
    (fun _ => [step, (step + blowup) % data.num_rows])

/-- Rust `fn row(&self, row_idx)`: returns `current` for 0, `next` for 1 and
panics otherwise (modelled as `none`). -/
def row? {F : Type} (f : DefaultEvaluationFrame F) (i : Nat) :
    Option (List F) :=
  match i with
  | 0 => some f.current
  | 1 => some f.next
  | _ => none

/-- Rust `fn main_row(&self)`: the `current` row. -/
def main_row {F : Type} (f : DefaultEvaluationFrame F) : List F :=
  f.current

/-- Rust `fn row_len(offset)`: `None` (all cells active) for offsets `< 2`,
`Some(0)` otherwise. -/
def row_len (offset : Nat) : Option Nat :=
  if offset < 2 then none else some 0

/-- Rust `fn is_active_cell(offset, _column_index) -> bool { offset < 2 }` -/
def is_active_cell (offset _column_index : Nat) : Bool :=
  decide (offset < 2)

/-- Rust `fn from_table(table)`: wraps rows 0 and 1 of the table; `get_row`
panics (modelled `none`) if the table has fewer than two rows. -/
def from_table {F : Type} (t : Table F) :
    Option (DefaultEvaluationFrame F) :=
  match t.get_row? 0, t.get_row? 1 with
  | some c, some n => some { current := c, next := n }
  | _, _ => none

/-- Rust `fn to_table(&self) -> Table<E>`:
`Table::from_rows(vec![current.clone(), next.clone()])`, which fails if
the two rows have different lengths. -/
def to_table {F : Type} (f : DefaultEvaluationFrame F) : Option (Table F) :=
  Table.from_rows [f.current, f.next]

end DefaultEvaluationFrame

-- CUSTOM EVALUATION FRAME (src/air/src/air/transition/frame.rs)
-- ===============================================================

/-- Rust `CustomEvaluationFrame<E>`: a frame backed by a single row-major
`Table`. -/
structure CustomEvaluationFrame (F : Type) where
  table : Table F

namespace CustomEvaluationFrame

/-- Rust `const FRAME_OFFSETS: [usize; 2] = [0, 1];` (the air crate's
`CustomEvaluationFrame` instantiates the custom shape with the same
offsets as the default one). -/
def FRAME_OFFSETS : List Nat := [0, 1]

/-- Rust `const FRAME_SHIFT: usize = 1;` -/
def FRAME_SHIFT : Nat := 1

/-- Rust `fn offsets()` -/
def offsets : List Nat := FRAME_OFFSETS

/-- Rust `fn shift()` -/
def shift : Nat := FRAME_SHIFT

/-- Rust `fn num_rows()` (trait default: `offsets().len()`). -/
def num_rows : Nat := offsets.length

/-- Rust `fn is_active_cell(offset, _column_index)`: sequential search of
`FRAME_OFFSETS` for `offset`. -/
def is_active_cell (offset _column_index : Nat) : Bool :=
  FRAME_OFFSETS.any (fun index => index == offset)

/-- Rust `fn row_len(offset)`: `Some(0)` when `offsets()` contains `offset`,
`None` otherwise.  (Note the orientation: the sentinel `Some(0)` is
returned exactly for the offsets that are members of the shape.) -/
def row_len (offset : Nat) : Option Nat :=
  if offsets.contains offset then some 0 else none

/-- Rust `fn read_from(&mut self, data, step, blowup)` of
`CustomEvaluationFrame`:

    for (row, row_idx) in table.rows_mut().zip(FRAME_OFFSETS):
      for col_idx in 0..data.num_cols():
        row[col_idx] = data.get(col_idx, (step + row_idx * blowup) % trace_len);

The zip pairs each stored row with its offset; cells `0..num_cols` of
each paired row are overwritten (the frame is allocated with `num_cols`
cells per row, so each paired row is rebuilt wholesale). -/
def read_from {F : Type} (f : CustomEvaluationFrame F)
    (data : TableReader F) (step blowup : Nat) : CustomEvaluationFrame F :=
  { table := ⟨(f.table.rows.zip FRAME_OFFSETS).map
      (fun pr => (List.range data.num_cols).map
        (fun c => data.get c ((step + pr.2 * blowup) % data.num_rows)))⟩ }

/-- Row indices this frame's `read_from` passes to `data.get`, in loop
order: for each row paired with offset `row_idx` by the zip, for each
`col_idx in 0..num_cols`, the index `(step + row_idx * blowup) % trace_len`. -/
def readRowArgs {F : Type} (f : CustomEvaluationFrame F)
    (data : TableReader F) (step blowup : Nat) : List Nat :=
  (f.table.rows.zip FRAME_OFFSETS).flatMap
    (fun pr => (List.range data.num_cols).map
      (fun _ => (step + pr.2 * blowup) % data.num_rows))

/-- Rust `fn row(&self, row_idx)`: `table.get_row(row_idx)` (bounds-checked). -/
def row? {F : Type} (f : CustomEvaluationFrame F) (i : Nat) :
    Option (List F) :=
  f.table.get_row? i

/-- Rust `fn main_row(&self)`: `table.get_row(0)`. -/
def main_row? {F : Type} (f : CustomEvaluationFrame F) : Option (List F) :=
  f.table.get_row? 0

/-- Rust `fn from_table(table) { Self { table } }` -/
def from_table {F : Type} (t : Table F) : CustomEvaluationFrame F :=
  { table := t }

/-- Rust `fn to_table(&self) { self.table.clone() }` -/
def to_table {F : Type} (f : CustomEvaluationFrame F) : Table F :=
  f.table

end CustomEvaluationFrame

-- CAIRO CPU FRAME (src/examples/src/custom_frames/cairo_cpu/frame.rs)
-- ===============================================================

/-- Rust `CairoCpuFrame<E>` from the cairo_cpu example: a custom frame backed
by a single row-major `Table`, with 19 offsets and shift 16. -/
structure CairoCpuFrame (F : Type) where
  table : Table F

namespace CairoCpuFrame

/-- Rust `fn offsets() -> &'static [usize]`:
`&[0, 1, 2, ..., 18]` (19 consecutive offsets). -/
def offsets : List Nat :=
  [0, 1, 2, 3, 4, 5, 6, 7, 8, 9, 10, 11, 12, 13, 14, 15, 16, 17, 18]

/-- Rust `const FRAME_SHIFT: usize = 16;` -/
def FRAME_SHIFT : Nat := 16

/-- The frame's shift. -/
def shift : Nat := FRAME_SHIFT

/-- Rust `fn num_rows()` (trait default: `offsets().len()`). -/
def num_rows : Nat := offsets.length

/-- Rust `fn read_from(&mut self, data, step, blowup)` of `CairoCpuFrame`:
identical in form to `CustomEvaluationFrame::read_from`, iterating
`table.rows_mut().zip(Self::offsets())`. -/
def read_from {F : Type} (f : CairoCpuFrame F)
    (data : TableReader F) (step blowup : Nat) : CairoCpuFrame F :=
  { table := ⟨(f.table.rows.zip offsets).map
      (fun pr => (List.range data.num_cols).map
        (fun c => data.get c ((step + pr.2 * blowup) % data.num_rows)))⟩ }

/-- Row indices this frame's `read_from` passes to `data.get`, in loop
order. -/
def readRowArgs {F : Type} (f : CairoCpuFrame F)
    (data : TableReader F) (step blowup : Nat) : List Nat :=
  (f.table.rows.zip offsets).flatMap
    (fun pr => (List.range data.num_cols).map
      (fun _ => (step + pr.2 * blowup) % data.num_rows))

/-- Rust `fn row(&self, row_idx)`: `table.get_row(row_idx)`. -/
def row? {F : Type} (f : CairoCpuFrame F) (i : Nat) : Option (List F) :=
  f.table.get_row? i

/-- Rust `fn from_table(table) { Self { table } }` -/
def from_table {F : Type} (t : Table F) : CairoCpuFrame F :=
  { table := t }

/-- Rust `fn to_table(&self) { self.table.clone() }` -/
def to_table {F : Type} (f : CairoCpuFrame F) : Table F :=
  f.table

end CairoCpuFrame

-- TRACE POLYNOMIAL TABLE (src/prover/src/trace/poly_table.rs)
-- ===============================================================

/-- Modelled from the spec (4.3, glossary): coefficient-form polynomial
evaluation, `p(x) = p_0 + p_1 x + p_2 x^2 + ...` (Horner form), as
performed by the external `math::polynom::eval` capability. -/
def polyEval {F : Type} [CommRing F] (p : List F) (x : F) : F :=
  p.foldr (fun a acc => a + x * acc) 0

/-- Modelled from the spec (section 3 "Trace Polynomial Table"): the
`prover` crate's column-major `Matrix<E>` (not under `src/`), storing one
coefficient vector per trace column.  `num_rows` is the common column
length (`poly_size`), `num_cols` the number of columns. -/
structure Matrix (F : Type) where
  columns : List (List F)

/-- Modelled from the spec: number of rows, i.e. the length of a column
(all columns have the same length by the rectangularity invariant). -/
def Matrix.num_rows {F : Type} (m : Matrix F) : Nat :=
  (m.columns.headD []).length

/-- Modelled from the spec: number of columns. -/
def Matrix.num_cols {F : Type} (m : Matrix F) : Nat :=
  m.columns.length

/-- Modelled from the spec (4.3 `evaluate_at`): evaluate every column
polynomial of the matrix at `x`, one value per column, in column order.
This is the `prover` crate's `Matrix::evaluate_columns_at`. -/
def Matrix.evaluate_columns_at {F : Type} [CommRing F]
    (m : Matrix F) (x : F) : List F :=
  m.columns.map (fun p => polyEval p x)

/-- Loop body of `Matrix::evaluate_some_columns_at`: walk the columns
keeping a running column index `i`, emitting the evaluation of exactly
the columns whose index satisfies the predicate. -/
def evalSomeColumns {F : Type} [CommRing F]
    (cols : List (List F)) (i : Nat) (x : F) (pred : Nat → Bool) : List F :=
  match cols with
  | [] => []
  | p :: rest =>
    if pred i then polyEval p x :: evalSomeColumns rest (i + 1) x pred
    else evalSomeColumns rest (i + 1) x pred

/-- Modelled from the spec (4.3 `evaluate_some_at`): evaluate only the
columns whose index satisfies the predicate, passing the column index to
the predicate (this is how `TracePolyTable::evaluate_some_at` invokes it:
`|column_index| air.is_active_cell(offset, column_index)`).  This is the
`prover` crate's `Matrix::evaluate_some_columns_at`, not under `src/`. -/
def Matrix.evaluate_some_columns_at {F : Type} [CommRing F]
    (m : Matrix F) (x : F) (pred : Nat → Bool) : List F :=
  evalSomeColumns m.columns 0 x pred

/-- Rust `TracePolyTable<E>` from `src/prover/src/trace/poly_table.rs`: the
main segment's column polynomials plus a list of auxiliary segments'
column polynomials.  (The Rust main segment is over `E::BaseField` and
the auxiliary ones over `E`; the embedding `E::from` is the identity
here, so both use `F`.) -/
structure TracePolyTable (F : Type) where
  main_segment_polys : Matrix F
  aux_segment_polys : List (Matrix F)

namespace TracePolyTable

/-- Rust `fn new(main_trace_polys)`: main segment as given, no auxiliary
segments. -/
def new {F : Type} (main_trace_polys : Matrix F) : TracePolyTable F :=
  { main_segment_polys := main_trace_polys, aux_segment_polys := [] }

/-- Rust `fn poly_size(&self)`: `main_segment_polys.num_rows()`. -/
def poly_size {F : Type} (t : TracePolyTable F) : Nat :=
  t.main_segment_polys.num_rows

/-- Rust `fn add_aux_segment(&mut self, aux_segment_polys)`:
`assert_eq!(main.num_rows(), aux.num_rows())`, then push the segment.
The assertion failure (a panic, before the push executes) is modelled as
`none`; on success the updated table is returned. -/
def add_aux_segment {F : Type} (t : TracePolyTable F)
    (aux : Matrix F) : Option (TracePolyTable F) :=
  if t.main_segment_polys.num_rows = aux.num_rows then
    some { t with aux_segment_polys := t.aux_segment_polys ++ [aux] }
  else
    none

/-- Rust `fn evaluate_at(&self, x)`: main-segment column evaluations followed
by each auxiliary segment's column evaluations, in append order. -/
def evaluate_at {F : Type} [CommRing F] (t : TracePolyTable F) (x : F) :
    List F :=
  t.main_segment_polys.evaluate_columns_at x ++
    (t.aux_segment_polys.map (fun m => m.evaluate_columns_at x)).flatten

/-- Rust `fn evaluate_some_at(&self, predicate, x)`: the main segment is
evaluated through `evaluate_some_columns_at` with the predicate; every
auxiliary segment is evaluated in full and appended, in append order.
(The Rust signature writes the bound `P: FnMut() -> bool`, but both call
sites pass one-argument closures receiving the column index; the
predicate is embedded as `Nat → Bool` accordingly.) -/
def evaluate_some_at {F : Type} [CommRing F] (t : TracePolyTable F)
    (pred : Nat → Bool) (x : F) : List F :=
  t.main_segment_polys.evaluate_some_columns_at x pred ++
    (t.aux_segment_polys.map (fun m => m.evaluate_columns_at x)).flatten

end TracePolyTable

/-- The frame-shape metadata an `Air` exposes to `get_ood_frame`:
`frame_offsets()`, the frame shift, and the `is_active_cell` activity
predicate.  (In Rust these are routed through the `Air` trait from the
concrete frame type's statics.) -/
structure FrameShape where
  offsets : List Nat
  shift : Nat
  is_active_cell : Nat → Nat → Bool

/-- Rust `fn get_ood_frame(&self, z, air)`:

    let g = E::from(get_root_of_unity(log2(poly_size)));
    air.frame_offsets().iter()
      .map(|offset| self.evaluate_some_at(
        |column_index| air.is_active_cell(offset, column_index),
        z * g.exp(offset)))
      .collect()

`g`, the generator of the trace domain (root of unity of order
`poly_size`), comes from the external field capability and is taken here
as a parameter.  The closure mapped over the offsets binds one variable,
the offset, and the exponent of `g` is that raw offset (the source text
spells the dereference of the binder `*i`). -/
def TracePolyTable.get_ood_frame {F : Type} [CommRing F]
    (t : TracePolyTable F) (z : F) (shape : FrameShape) (g : F) :
    List (List F) :=
  shape.offsets.map (fun offset =>
    t.evaluate_some_at (fun column_index =>
      shape.is_active_cell offset column_index) (z * g ^ offset))

-- CONCRETE INSTANCES (for witnesses and counterexamples)
-- ===============================================================

/-- A 2-row, 1-column trace reader over `Nat` whose cell value records
the row index it was read at — it distinguishes reduced from unreduced
row arguments. -/
def natReader : TableReader Nat :=
  { num_rows := 2, num_cols := 1, get := fun _ r => r }

/-- A length-8, 1-column trace of constant ones over `ZMod 17` (in which
`2` is a root of unity of order 8). -/
def onesReader : TableReader (ZMod 17) :=
  { num_rows := 8, num_cols := 1, get := fun _ _ => 1 }

/-- The polynomial table holding the single constant-one column
polynomial interpolating `onesReader`'s column. -/
def onesTable : TracePolyTable (ZMod 17) :=
  TracePolyTable.new ⟨[[1]]⟩

-- HELPER LEMMAS
-- ===============================================================

/-- In a monoid, if `g ^ L = 1` then exponents of `g` can be reduced
modulo `L`: this is why cyclic wraparound reads agree with polynomial
evaluation at powers of the trace-domain generator. -/
theorem pow_mod_eq_pow {M : Type} [Monoid M] (g : M) (L : Nat)
    (hg : g ^ L = 1) (a : Nat) : g ^ (a % L) = g ^ a := by
  conv_rhs => rw [← Nat.div_add_mod a L]
  rw [pow_add, pow_mul, hg, one_pow, one_mul]

/-- The indexed evaluation loop emits exactly the evaluations of the
columns whose (running) index satisfies the predicate, in order. -/
theorem evalSomeColumns_eq_filter {F : Type} [CommRing F] (x : F)
    (pred : Nat → Bool) (cols : List (List F)) :
    ∀ i : Nat,
      evalSomeColumns cols i x pred =
        ((List.enumFrom i cols).filter (fun pr => pred pr.1)).map
          (fun pr => polyEval pr.2 x) := by
  induction cols with
  | nil => intro i; rfl
  | cons p rest ih =>
    intro i
    by_cases h : pred i = true
    · simp [evalSomeColumns, h, List.enumFrom_cons, List.filter_cons, ih (i + 1)]
    · simp [evalSomeColumns, h, List.enumFrom_cons, List.filter_cons, ih (i + 1)]

/-- With an everywhere-true predicate the indexed evaluation loop
evaluates every column. -/
theorem evalSomeColumns_all_true {F : Type} [CommRing F] (x : F)
    (pred : Nat → Bool) (hpred : ∀ c, pred c = true) (cols : List (List F)) :
    ∀ i : Nat, evalSomeColumns cols i x pred = cols.map (fun p => polyEval p x) := by
  induction cols with
  | nil => intro i; rfl
  | cons p rest ih => intro i; simp [evalSomeColumns, hpred i, ih (i + 1)]

/-- Mapping a function of the `getD`-cell over the index range of a list
is mapping it over the list. -/
theorem map_range_getD {A B : Type} (l : List A) (d : A) (f : A → B) :
    (List.range l.length).map (fun c => f (l.getD c d)) = l.map f := by
  induction l with
  | nil => rfl
  | cons a t ih =>
    simp only [List.length_cons, List.range_succ_eq_map, List.map_cons,
      List.map_map, Function.comp_def, List.getD_cons_zero,
      List.getD_cons_succ]
    exact congrArg (List.cons (f a)) ih

/-- Cell contents of a zip-driven windowed read (the common loop of
`CustomEvaluationFrame::read_from` and `CairoCpuFrame::read_from`): the
row paired with the `k`-th offset holds, at column `c`, the trace value
at row `(step + offset * blowup) % num_rows`. -/
theorem zip_read_cell {F : Type} (rows : List (List F)) (offs : List Nat)
    (reader : TableReader F) (step blowup k c : Nat)
    (hk : k < offs.length) (hkr : k < rows.length) (hc : c < reader.num_cols) :
    ((((rows.zip offs).map (fun pr => (List.range reader.num_cols).map
        (fun cc => reader.get cc ((step + pr.2 * blowup) % reader.num_rows))))[k]?).bind
      (fun r => r[c]?)) =
    some (reader.get c ((step + offs.getD k 0 * blowup) % reader.num_rows)) := by
  have hrow : rows[k]? = some (rows.getD k []) := by
    rw [List.getElem?_eq_getElem hkr, List.getD_eq_getElem?_getD,
      List.getElem?_eq_getElem hkr, Option.getD_some]
  have hoff : offs[k]? = some (offs.getD k 0) := by
    rw [List.getElem?_eq_getElem hk, List.getD_eq_getElem?_getD,
      List.getElem?_eq_getElem hk, Option.getD_some]
  have hz : (rows.zip offs)[k]? = some (rows.getD k [], offs.getD k 0) :=
    List.getElem?_zip_eq_some.mpr ⟨hrow, hoff⟩
  simp [List.getElem?_map, hz, List.getElem?_range, hc]

-- CLAIM THEOREMS
-- ===============================================================

/-- C3 (code bug evidence): for the `CustomEvaluationFrame` shape,
offset 0 and column 0 form an active cell, yet `row_len 0` is the
zero-width sentinel `Some(0)` rather than the all-columns-active `None`
— contradicting the trait's documented contract and its TODO
(`is_active_cell(offset, col) == true` must imply `row_len(offset) > 0`). -/
theorem custom_active_cell_row_len_conflict :
    CustomEvaluationFrame.is_active_cell 0 0 = true ∧
    CustomEvaluationFrame.row_len 0 = some 0 := by
  decide

/-- C4: `get_ood_frame z shape g` has one row per offset in offset
order; the row paired with offset `o` is
`evaluate_some_at (fun c => is_active_cell o c) (z * g ^ o)`; and the
result is independent of the shape's `shift` — the exponent of `g` is
the raw offset, never the offset scaled by the shift. -/
theorem get_ood_frame_spec {F : Type} [CommRing F]
    (t : TracePolyTable F) (z g : F) (shape : FrameShape) :
    (t.get_ood_frame z shape g).length = shape.offsets.length ∧
    (∀ k : Nat, (t.get_ood_frame z shape g)[k]? =
      (shape.offsets[k]?).map (fun o =>
        t.evaluate_some_at (fun c => shape.is_active_cell o c) (z * g ^ o))) ∧
    (∀ s : Nat, t.get_ood_frame z shape g =
      t.get_ood_frame z ⟨shape.offsets, s, shape.is_active_cell⟩ g) := by
  refine ⟨List.length_map _ _, fun k => ?_, fun s => rfl⟩
  rw [TracePolyTable.get_ood_frame, List.getElem?_map]

/-- C5: `evaluate_some_at predicate x` returns the evaluations at `x` of
exactly the main-segment columns whose index satisfies the predicate
(the column index being passed to the predicate), followed by the full
evaluations of every auxiliary segment in segment-append order. -/
theorem evaluate_some_at_spec {F : Type} [CommRing F]
    (t : TracePolyTable F) (pred : Nat → Bool) (x : F) :
    t.evaluate_some_at pred x =
      ((t.main_segment_polys.columns.enum.filter (fun pr => pred pr.1)).map
        (fun pr => polyEval pr.2 x)) ++
      (t.aux_segment_polys.map (fun m => m.evaluate_columns_at x)).flatten := by
  rw [TracePolyTable.evaluate_some_at, Matrix.evaluate_some_columns_at,
    evalSomeColumns_eq_filter, List.enum]

/-- C6: `add_aux_segment` fails (the size assertion fires before the
push, so no segment is appended and the table is left unchanged) whenever
the auxiliary matrix's row count differs from the main segment's
`poly_size`. -/
theorem add_aux_segment_mismatch_fails {F : Type} (t : TracePolyTable F)
    (aux : Matrix F) (h : aux.num_rows ≠ t.poly_size) :
    t.add_aux_segment aux = none := by
  have h' : ¬ t.main_segment_polys.num_rows = aux.num_rows := fun he => h he.symm
  rw [TracePolyTable.add_aux_segment, if_neg h']

/-- Witness for C6: adding a 1-row auxiliary segment to a table whose
main segment polynomials have 2 rows fails. -/
theorem add_aux_segment_mismatch_fails_witness :
    (TracePolyTable.new (⟨[[(1 : Int), 0]]⟩ : Matrix Int)).add_aux_segment
      ⟨[[(5 : Int)]]⟩ = none :=
  add_aux_segment_mismatch_fails _ _ (by decide)

/-- C10: when `add_aux_segment` succeeds, the main segment is unchanged,
exactly one segment is appended at the end of the auxiliary list (all
previously appended segments unchanged and in place), and `poly_size` is
unchanged. -/
theorem add_aux_segment_success_effect {F : Type} (t : TracePolyTable F)
    (aux : Matrix F) (t' : TracePolyTable F)
    (h : t.add_aux_segment aux = some t') :
    t'.main_segment_polys = t.main_segment_polys ∧
    t'.aux_segment_polys = t.aux_segment_polys ++ [aux] ∧
    t'.poly_size = t.poly_size := by
  rw [TracePolyTable.add_aux_segment] at h
  by_cases hc : t.main_segment_polys.num_rows = aux.num_rows
  · rw [if_pos hc, Option.some_inj] at h
    subst h
    exact ⟨rfl, rfl, rfl⟩
  · rw [if_neg hc] at h
    cases h

/-- Witness for C10: appending a size-matched auxiliary segment. -/
theorem add_aux_segment_success_effect_witness :
    (⟨⟨[[(1 : Int), 0]]⟩, [⟨[[(2 : Int), 3]]⟩]⟩ :
        TracePolyTable Int).main_segment_polys =
      (TracePolyTable.new (⟨[[(1 : Int), 0]]⟩ : Matrix Int)).main_segment_polys ∧
    (⟨⟨[[(1 : Int), 0]]⟩, [⟨[[(2 : Int), 3]]⟩]⟩ :
        TracePolyTable Int).aux_segment_polys =
      (TracePolyTable.new (⟨[[(1 : Int), 0]]⟩ : Matrix Int)).aux_segment_polys ++
        [⟨[[(2 : Int), 3]]⟩] ∧
    (⟨⟨[[(1 : Int), 0]]⟩, [⟨[[(2 : Int), 3]]⟩]⟩ :
        TracePolyTable Int).poly_size =
      (TracePolyTable.new (⟨[[(1 : Int), 0]]⟩ : Matrix Int)).poly_size :=
  add_aux_segment_success_effect _ ⟨[[(2 : Int), 3]]⟩ _ rfl

/-- C9: round-tripping a frame through `to_table`/`from_table` preserves
the row contents exactly, for both concrete shapes: for the Custom shape
unconditionally, and for the Default shape for every rectangular frame
(equal-length `current` and `next`, the data-model invariant under which
`Table::from_rows` succeeds) the round trip returns the very same frame. -/
theorem from_table_to_table_roundtrip {F : Type} :
    (∀ f : CustomEvaluationFrame F,
      CustomEvaluationFrame.from_table (CustomEvaluationFrame.to_table f) = f) ∧
    (∀ f : DefaultEvaluationFrame F, f.current.length = f.next.length →
      (f.to_table).bind DefaultEvaluationFrame.from_table = some f) := by
  constructor
  · intro f; rfl
  · intro f h
    rw [DefaultEvaluationFrame.to_table, Table.from_rows]
    rw [if_pos (by simp [h])]
    rfl

/-- Witness for C9: round trips of a concrete one-column custom frame
and a concrete default frame with rows `[1]` and `[2]`. -/
theorem from_table_to_table_roundtrip_witness :
    CustomEvaluationFrame.from_table
        (CustomEvaluationFrame.to_table
          (⟨⟨[[(1 : Int)]]⟩⟩ : CustomEvaluationFrame Int)) =
      (⟨⟨[[(1 : Int)]]⟩⟩ : CustomEvaluationFrame Int) ∧
    ((⟨[(1 : Int)], [2]⟩ : DefaultEvaluationFrame Int).to_table).bind
        DefaultEvaluationFrame.from_table =
      some (⟨[(1 : Int)], [2]⟩ : DefaultEvaluationFrame Int) :=
  ⟨from_table_to_table_roundtrip.1 _,
   from_table_to_table_roundtrip.2 _ rfl⟩

/-- C7: the Cairo CPU frame shape has offset 16 among its offsets and
shift 16; with blowup 1 on a 32-row trace, `read_from` at step 0
populates the row paired with offset 16 from trace row 16, and at step
16 (one shift later) from trace row `32 % 32 = 0`. -/
theorem cairo_wide_window {F : Type} (f : CairoCpuFrame F)
    (reader : TableReader F) (hrows : reader.num_rows = 32)
    (hlen : 19 ≤ f.table.rows.length) :
    16 ∈ CairoCpuFrame.offsets ∧ CairoCpuFrame.shift = 16 ∧
    (∀ c : Nat, c < reader.num_cols →
      (((f.read_from reader 0 1).row? 16).bind (fun r => r[c]?)) =
        some (reader.get c 16)) ∧
    (∀ c : Nat, c < reader.num_cols →
      (((f.read_from reader 16 1).row? 16).bind (fun r => r[c]?)) =
        some (reader.get c 0)) := by
  refine ⟨by decide, rfl, fun c hc => ?_, fun c hc => ?_⟩
  · have h := zip_read_cell f.table.rows CairoCpuFrame.offsets reader 0 1 16 c
      (by decide) (by omega) hc
    rw [hrows] at h
    rw [CairoCpuFrame.read_from, CairoCpuFrame.row?, Table.get_row?, hrows]
    simpa [CairoCpuFrame.offsets] using h
  · have h := zip_read_cell f.table.rows CairoCpuFrame.offsets reader 16 1 16 c
      (by decide) (by omega) hc
    rw [hrows] at h
    rw [CairoCpuFrame.read_from, CairoCpuFrame.row?, Table.get_row?, hrows]
    simpa [CairoCpuFrame.offsets] using h

/-- Witness for C7: a concrete 19-row frame over `Nat` read from a
32-row reader whose cell value records the row index. -/
theorem cairo_wide_window_witness :
    ((((⟨⟨List.replicate 19 []⟩⟩ : CairoCpuFrame Nat).read_from
        ⟨32, 1, fun _ r => r⟩ 0 1).row? 16).bind (fun r => r[0]?)) =
      some ((⟨32, 1, fun _ r => r⟩ : TableReader Nat).get 0 16) ∧
    ((((⟨⟨List.replicate 19 []⟩⟩ : CairoCpuFrame Nat).read_from
        ⟨32, 1, fun _ r => r⟩ 16 1).row? 16).bind (fun r => r[0]?)) =
      some ((⟨32, 1, fun _ r => r⟩ : TableReader Nat).get 0 0) :=
  ⟨(cairo_wide_window _ _ rfl (by decide)).2.2.1 0 (by decide),
   (cairo_wide_window _ _ rfl (by decide)).2.2.2 0 (by decide)⟩

/-- C2 counterexample: for the Default shape at offset 0 the claim
fails when `step >= num_rows`.  With the 2-row `natReader` (cell value =
row index), `step = 5`, `blowup = 1`, offset 0, column 0, the code reads
`get(0, 5) = 5`, while the claim requires
`get(0, (5 + 0*1) % 2) = get(0, 1) = 1`. -/
theorem default_read_from_cell_counterexample :
    (((DefaultEvaluationFrame.read_from ⟨[0], [0]⟩ natReader 5 1).row? 0).bind
        (fun r => r[0]?)) ≠
      some (natReader.get 0 ((5 + 0 * 1) % natReader.num_rows)) := by
  decide

/-- C2 (amended): the cell formula
`row(o)[c] = get(c, (step + o*blowup) % num_rows)` holds as stated, at
every step, for the Custom shapes (`CustomEvaluationFrame` and
`CairoCpuFrame`, for each position `k` in `offsets` backed by a stored
row); for the Default shape it holds for offset 1 at every step, and for
offset 0 only when `step < num_rows`, because the code reads the current
row at the raw, unreduced `step`. -/
theorem read_from_cell_spec {F : Type} (reader : TableReader F)
    (step blowup : Nat) :
    (∀ (f : CustomEvaluationFrame F) (k c : Nat),
      k < CustomEvaluationFrame.offsets.length → k < f.table.rows.length →
      c < reader.num_cols →
      (((f.read_from reader step blowup).row? k).bind (fun r => r[c]?)) =
        some (reader.get c
          ((step + CustomEvaluationFrame.offsets.getD k 0 * blowup) %
            reader.num_rows))) ∧
    (∀ (f : CairoCpuFrame F) (k c : Nat),
      k < CairoCpuFrame.offsets.length → k < f.table.rows.length →
      c < reader.num_cols →
      (((f.read_from reader step blowup).row? k).bind (fun r => r[c]?)) =
        some (reader.get c
          ((step + CairoCpuFrame.offsets.getD k 0 * blowup) %
            reader.num_rows))) ∧
    (∀ (f : DefaultEvaluationFrame F) (c : Nat), c < reader.num_cols →
      ((((f.read_from reader step blowup).row? 1).bind (fun r => r[c]?)) =
        some (reader.get c ((step + 1 * blowup) % reader.num_rows)) ∧
      (step < reader.num_rows →
        (((f.read_from reader step blowup).row? 0).bind (fun r => r[c]?)) =
          some (reader.get c ((step + 0 * blowup) % reader.num_rows))))) := by
  refine ⟨fun f k c hk hkr hc => ?_, fun f k c hk hkr hc => ?_,
    fun f c hc => ⟨?_, fun hstep => ?_⟩⟩
  · rw [CustomEvaluationFrame.read_from, CustomEvaluationFrame.row?,
      Table.get_row?]
    exact zip_read_cell f.table.rows CustomEvaluationFrame.offsets reader
      step blowup k c hk hkr hc
  · rw [CairoCpuFrame.read_from, CairoCpuFrame.row?, Table.get_row?]
    exact zip_read_cell f.table.rows CairoCpuFrame.offsets reader
      step blowup k c hk hkr hc
  · rw [DefaultEvaluationFrame.read_from, DefaultEvaluationFrame.row?]
    simp [List.getElem?_map, List.getElem?_range, hc, one_mul]
  · have hm : (step + 0 * blowup) % reader.num_rows = step := by
      rw [Nat.zero_mul, Nat.add_zero, Nat.mod_eq_of_lt hstep]
    rw [hm, DefaultEvaluationFrame.read_from, DefaultEvaluationFrame.row?]
    simp [List.getElem?_map, List.getElem?_range, hc]

/-- Witness for C2 (amended): concrete cells of all three shapes over
`natReader`. -/
theorem read_from_cell_spec_witness :
    ((((⟨⟨[[], []]⟩⟩ : CustomEvaluationFrame Nat).read_from natReader 5 1).row?
        1).bind (fun r => r[0]?)) =
      some (natReader.get 0
        ((5 + CustomEvaluationFrame.offsets.getD 1 0 * 1) % natReader.num_rows)) ∧
    ((((⟨⟨List.replicate 19 []⟩⟩ : CairoCpuFrame Nat).read_from natReader 5
        1).row? 1).bind (fun r => r[0]?)) =
      some (natReader.get 0
        ((5 + CairoCpuFrame.offsets.getD 1 0 * 1) % natReader.num_rows)) ∧
    ((((⟨[0], [0]⟩ : DefaultEvaluationFrame Nat).read_from natReader 1 1).row?
        0).bind (fun r => r[0]?)) =
      some (natReader.get 0 ((1 + 0 * 1) % natReader.num_rows)) :=
  ⟨(read_from_cell_spec natReader 5 1).1 _ 1 0 (by decide) (by decide)
      (by decide),
   (read_from_cell_spec natReader 5 1).2.1 _ 1 0 (by decide) (by decide)
      (by decide),
   ((read_from_cell_spec natReader 1 1).2.2 _ 0 (by decide)).2 (by decide)⟩

/-- C8 counterexample: the Default shape passes the raw `step` to
`trace_reader.get` for the current row; with the 2-row `natReader`,
`step = 5`, `blowup = 1`, the row argument 5 is passed and is not
strictly less than `num_rows = 2`. -/
theorem default_read_row_args_counterexample :
    5 ∈ DefaultEvaluationFrame.readRowArgs natReader 5 1 ∧
    ¬ 5 < natReader.num_rows := by
  decide

/-- C8 (amended): with a nonempty trace, every row argument passed to
`trace_reader.get` by `read_from` is strictly less than `num_rows()` for
the Custom shapes (`CustomEvaluationFrame` and `CairoCpuFrame`) at every
step; for the Default shape this holds only under `step < num_rows()`,
because the current row is read at the raw, unreduced `step` (the next
row's argument is always reduced). -/
theorem read_row_args_reduced {F : Type} (reader : TableReader F)
    (step blowup : Nat) (hpos : 0 < reader.num_rows) :
    (∀ f : CustomEvaluationFrame F,
      (f.readRowArgs reader step blowup).all
        (fun a => a < reader.num_rows) = true) ∧
    (∀ f : CairoCpuFrame F,
      (f.readRowArgs reader step blowup).all
        (fun a => a < reader.num_rows) = true) ∧
    (step < reader.num_rows →
      (DefaultEvaluationFrame.readRowArgs reader step blowup).all
        (fun a => a < reader.num_rows) = true) := by
  refine ⟨fun f => ?_, fun f => ?_, fun hstep => ?_⟩
  · rw [CustomEvaluationFrame.readRowArgs, List.all_eq_true]
    intro a ha
    rw [List.mem_flatMap] at ha
    obtain ⟨pr, _, ha⟩ := ha
    rw [List.mem_map] at ha
    obtain ⟨_, _, ha⟩ := ha
    simpa [← ha] using Nat.mod_lt _ hpos
  · rw [CairoCpuFrame.readRowArgs, List.all_eq_true]
    intro a ha
    rw [List.mem_flatMap] at ha
    obtain ⟨pr, _, ha⟩ := ha
    rw [List.mem_map] at ha
    obtain ⟨_, _, ha⟩ := ha
    simpa [← ha] using Nat.mod_lt _ hpos
  · rw [DefaultEvaluationFrame.readRowArgs, List.all_eq_true]
    intro a ha
    rw [List.mem_flatMap] at ha
    obtain ⟨_, _, ha⟩ := ha
    rw [List.mem_cons, List.mem_singleton] at ha
    rcases ha with ha | ha
    · subst ha; simpa using hstep
    · subst ha; simpa using Nat.mod_lt _ hpos

/-- Witness for C8 (amended): all row arguments of concrete reads over
`natReader` are reduced. -/
theorem read_row_args_reduced_witness :
    (((⟨⟨[[], []]⟩⟩ : CustomEvaluationFrame Nat).readRowArgs natReader 5 1).all
      (fun a => a < natReader.num_rows) = true) ∧
    (((⟨⟨List.replicate 19 []⟩⟩ : CairoCpuFrame Nat).readRowArgs natReader 5
        1).all (fun a => a < natReader.num_rows) = true) ∧
    ((DefaultEvaluationFrame.readRowArgs natReader 1 1).all
      (fun a => a < natReader.num_rows) = true) :=
  ⟨(read_row_args_reduced natReader 5 1 (by decide)).1 _,
   (read_row_args_reduced natReader 5 1 (by decide)).2.1 _,
   (read_row_args_reduced natReader 1 1 (by decide)).2.2 (by decide)⟩

/-- C1: read/evaluate duality.  For a trace of length `L` whose columns
are exact evaluations of the stored main-segment column polynomials at
the `L`-th roots of unity (`g` of order dividing `L` generating the trace
domain), `read_from(reader, s, blowup = 1)` at any trace step `s < L`
produces, for every offset `o` of the Default frame shape, a row equal to
`evaluate_some_at(is_active_cell(o, ·), g^(s+o))`: the discrete windowed
read and polynomial evaluation agree at every trace-domain point. -/
theorem read_evaluate_duality {F : Type} [CommRing F]
    (t : TracePolyTable F) (g : F) (L : Nat) (reader : TableReader F)
    (f : DefaultEvaluationFrame F) (s : Nat)
    (haux : t.aux_segment_polys = [])
    (hrows : reader.num_rows = L)
    (hcols : reader.num_cols = t.main_segment_polys.num_cols)
    (hg : g ^ L = 1)
    (hget : ∀ c, c < reader.num_cols → ∀ r, r < L →
      reader.get c r = polyEval (t.main_segment_polys.columns.getD c []) (g ^ r))
    (hs : s < L) :
    ∀ o ∈ DefaultEvaluationFrame.offsets,
      (f.read_from reader s 1).row? o =
        some (t.evaluate_some_at
          (fun c => DefaultEvaluationFrame.is_active_cell o c) (g ^ (s + o))) := by
  have hL : 0 < L := lt_of_le_of_lt (Nat.zero_le s) hs
  have key : ∀ r, r < L →
      (List.range reader.num_cols).map (fun c => reader.get c r) =
        t.main_segment_polys.columns.map (fun p => polyEval p (g ^ r)) := by
    intro r hr
    have h1 : ∀ c ∈ List.range reader.num_cols,
        reader.get c r =
          polyEval (t.main_segment_polys.columns.getD c []) (g ^ r) :=
      fun c hc => hget c (List.mem_range.mp hc) r hr
    rw [List.map_congr_left h1, hcols, Matrix.num_cols]
    exact map_range_getD _ _ _
  have hRHS : ∀ o, o < 2 →
      t.evaluate_some_at
          (fun c => DefaultEvaluationFrame.is_active_cell o c) (g ^ (s + o)) =
        t.main_segment_polys.columns.map (fun p => polyEval p (g ^ (s + o))) := by
    intro o ho2
    rw [TracePolyTable.evaluate_some_at, haux]
    simp only [List.map_nil, List.flatten_nil, List.append_nil]
    rw [Matrix.evaluate_some_columns_at]
    exact evalSomeColumns_all_true _ _
      (fun c => by simp [DefaultEvaluationFrame.is_active_cell, ho2]) _ 0
  intro o ho
  have ho01 : o = 0 ∨ o = 1 := by
    simpa [DefaultEvaluationFrame.offsets,
      DefaultEvaluationFrame.FRAME_OFFSETS] using ho
  rcases ho01 with rfl | rfl
  · rw [hRHS 0 (by decide), Nat.add_zero]
    simp only [DefaultEvaluationFrame.read_from, DefaultEvaluationFrame.row?]
    rw [key s hs]
  · rw [hRHS 1 (by decide)]
    simp only [DefaultEvaluationFrame.read_from, DefaultEvaluationFrame.row?]
    rw [hrows, key ((s + 1) % L) (Nat.mod_lt _ hL),
      pow_mod_eq_pow g L hg (s + 1)]

/-- Witness for C1: the length-8 constant-ones trace over `ZMod 17`
(where `2` has order 8), its constant-one polynomial table, at step 2
and offset 1. -/
theorem read_evaluate_duality_witness :
    ((⟨[0], [0]⟩ : DefaultEvaluationFrame (ZMod 17)).read_from onesReader
        2 1).row? 1 =
      some (onesTable.evaluate_some_at
        (fun c => DefaultEvaluationFrame.is_active_cell 1 c)
        ((2 : ZMod 17) ^ (2 + 1))) :=
  read_evaluate_duality onesTable 2 8 onesReader ⟨[0], [0]⟩ 2 rfl rfl rfl
    (by decide)
    (fun c hc r _hr => by
      have hc1 : c < 1 := hc
      have hc0 : c = 0 := Nat.lt_one_iff.mp hc1
      subst hc0
      simp [onesReader, onesTable, TracePolyTable.new, polyEval])
    (by decide) 1 (by decide)

end Winterfell
